import Mathlib

/-!
Verification of the Sansad RAG ingestion and retrieval pipeline.

Shallow embedding of the two backend modules:
  * `ingest_service.py` — content-addressed PDF ingestion: size guard,
    sha256 dedup ledger, text extraction, word-window chunking, chunk file
    writes, index update (`process_pdf_bytes` and its helpers);
  * `rag_pipeline.py` — query loop: collection count check, question strip
    and exit check, embedding, vector query, prompt assembly, generation
    (`ask_question`).

External collaborators (sha256, the PDF extractors, langdetect, the
embedding model, ChromaDB and Gemini) are modelled as external function
parameters.  Machine floats of the Python source are modelled by exact
rationals; on every parameter value exercised here the float computation
and the exact rational computation agree.  Filesystem state (the dedup
ledger `index.json`, the blob directory and the chunk directory) is an
explicit record passed in and out.
-/

namespace Sansad

/-! ### Python primitives -/

/-- Python `int()` applied to an exact rational value: truncation toward
zero.  The numerator and denominator of a normalised `Rat` are coprime and
the denominator is positive, so T-division of the numerator by the
denominator is exactly truncation toward zero. -/
def pyTrunc (q : ℚ) : ℤ := Int.tdiv q.num q.den

/-- Python `str.strip()`: remove leading and trailing whitespace. -/
def pyStrip (s : String) : String :=
  String.mk (((s.data.dropWhile Char.isWhitespace).reverse.dropWhile Char.isWhitespace).reverse)

/-- Python `str.lower()` (over the character ranges used here). -/
def pyLower (s : String) : String := String.mk (s.data.map Char.toLower)

/-- Worker for `pySplit`: walk the characters, accumulating the current
word in reverse; whitespace flushes the accumulator, and empty fragments
are dropped, exactly as Python `str.split()` with no argument. -/
def pySplitAux : List Char → List Char → List (List Char)
  | [], acc => if acc = [] then [] else [acc.reverse]
  | c :: cs, acc =>
    if c.isWhitespace then
      if acc = [] then pySplitAux cs [] else acc.reverse :: pySplitAux cs []
    else pySplitAux cs (c :: acc)

/-- Python `str.split()` with no argument: split on runs of whitespace,
discarding empty fragments. -/
def pySplit (s : String) : List String :=
  (pySplitAux s.data []).map String.mk

/-- Worker for `natStr`, fuelled so that it evaluates by kernel reduction;
`fuel > n` is always sufficient. -/
def natStrAux : ℕ → ℕ → List Char
  | 0, _ => []
  | fuel + 1, n =>
    if n < 10 then [Char.ofNat (48 + n)]
    else natStrAux fuel (n / 10) ++ [Char.ofNat (48 + n % 10)]

/-- Python `str()` of a nonnegative integer: usual decimal rendering. -/
def natStr (n : ℕ) : String := String.mk (natStrAux (n + 1) n)

/-- Python slice `c[:n]` on a string. -/
def pySlice (c : String) (n : ℕ) : String := String.mk (c.data.take n)

/-! ### ingest_service.py — chunking -/

/-- Constant `MAX_PDF_SIZE_MB = 25` of `ingest_service.py`. -/
def MAX_PDF_SIZE_MB : ℕ := 25

/-- The `while i < len(words)` loop of `chunk_text`: emit the window
`words[i : i + target]` joined by single spaces, then advance by `step`.
Fuelled so that it evaluates by kernel reduction; when `0 < step`, any
`fuel > words.length - i` is sufficient and the fuel never runs out. -/
def chunkFromFuel (words : List String) (target step : ℕ) : ℕ → ℕ → List String
  | 0, _ => []
  | fuel + 1, i =>
    if i < words.length then
      String.intercalate " " ((words.drop i).take target) ::
        chunkFromFuel words target step fuel (i + step)
    else []

/-- The stride computation `int(target_words * (1 - overlap)) or target_words`
of `chunk_text`: Python `or` substitutes `target_words` exactly when the
truncated product is `0` (the only falsy integer). -/
def strideOf (target : ℕ) (overlap : ℚ) : ℤ :=
  if pyTrunc ((target : ℚ) * (1 - overlap)) = 0 then (target : ℤ)
  else pyTrunc ((target : ℚ) * (1 - overlap))

/-- The chunking loop of `chunk_text` on an already split word list.
A nonpositive stride makes the Python `while` loop diverge (the index
never reaches the word count), which the model reports as `none`. -/
def chunkWords (words : List String) (target : ℕ) (stepZ : ℤ) : Option (List String) :=
  if 0 < stepZ then some (chunkFromFuel words target stepZ.toNat (words.length + 1) 0)
  else none

/-- Function `chunk_text(text, target_words=400, overlap=0.2)` of
`ingest_service.py`: empty text yields no chunks; otherwise split into
whitespace-delimited words and emit windows of `target_words` words
starting every `stride` words. -/
def chunk_text (text : String) (target_words : ℕ) (overlap : ℚ) : Option (List String) :=
  if text = "" then some []
  else chunkWords (pySplit text) target_words (strideOf target_words overlap)

/-- The stride the specification document prescribes for the chunker:
`round(target_size * (1 - overlap_fraction))`, with the same zero
fallback.  Kept separate from `strideOf` (the stride the code computes)
so the two can be compared. -/
def strideOfSpec (target : ℕ) (overlap : ℚ) : ℤ :=
  if round ((target : ℚ) * (1 - overlap)) = 0 then (target : ℤ)
  else round ((target : ℚ) * (1 - overlap))

/-- The chunker as the specification document words it: identical to
`chunk_text` except that the stride is rounded instead of truncated. -/
def chunk_text_spec (text : String) (target_words : ℕ) (overlap : ℚ) : Option (List String) :=
  if text = "" then some []
  else chunkWords (pySplit text) target_words (strideOfSpec target_words overlap)

/-! ### ingest_service.py — extraction and the core processor -/

/-- Metadata mapping as produced by `PyPDF2`: string keys to string values. -/
abbrev PdfMeta := List (String × String)

/-- Result of the external PDF readers (`pdfplumber` + `PyPDF2`): either the
page texts plus the metadata mapping, or an exception.  An exception may
occur after some metadata assignments, so the error also carries the
metadata accumulated so far. -/
abbrev PdfRead := List ℕ → Except PdfMeta (List String × PdfMeta)

/-- Function `extract_text_and_meta` of `ingest_service.py`: on success the
page texts are joined with a blank line and stripped; on any reader
exception the initial empty text is returned instead of propagating the
failure. -/
def extract_text_and_meta (pdfRead : PdfRead) (pdf_bytes : List ℕ) : String × PdfMeta :=
  match pdfRead pdf_bytes with
  | .error metaSoFar => ("", metaSoFar)
  | .ok (pages, meta) => (pyStrip (String.intercalate "\n\n" pages), meta)

/-- Persistent state touched by `process_pdf_bytes`: the dedup ledger
`index.json` (a JSON object, insertion ordered), the raw PDF blob
directory, and the chunk preview directory. -/
structure IngestState where
  ledger : List (String × String)
  blobs : List (String × List ℕ)
  chunkFiles : List (String × String)
deriving DecidableEq

/-- The `"status": "ingested"` response dictionary of `process_pdf_bytes`. -/
structure IngestSummary where
  pdf_filename : String
  pdf_path : String
  sha256 : String
  source : String
  language : String
  needs_ocr : Bool
  next_step : String
  num_chunks : ℕ
  chunk_ids : List String
  meta : PdfMeta
deriving DecidableEq

/-- Possible outcomes of `process_pdf_bytes`: the HTTP 413 exception of the
size guard, the duplicate short-circuit, or a full ingestion summary. -/
inductive IngestResult where
  | tooLarge (code : ℕ) (detail : String)
  | duplicate (existing_pdf : String) (sha256 : String)
  | ingested (summary : IngestSummary)
deriving DecidableEq

/-- Chunk ids of an ingested result, for stating claims about them. -/
def IngestResult.chunkIds : IngestResult → Option (List String)
  | .ingested s => some s.chunk_ids
  | _ => none

/-- Writing a file: overwrite the entry if the name exists, append it
otherwise. -/
def fsWrite {α : Type} (files : List (String × α)) (name : String) (content : α) :
    List (String × α) :=
  if (files.lookup name).isSome then
    files.map (fun p => if p.1 = name then (name, content) else p)
  else files ++ [(name, content)]

/-- The chunk file name `f"{fname}.chunk{i}.txt"` of `process_pdf_bytes`. -/
def chunkFileName (fname : String) (i : ℕ) : String :=
  fname ++ ".chunk" ++ natStr i ++ ".txt"

/-- The language detection block of `process_pdf_bytes`: only attempted on
text longer than 30 characters, restricted to the allow-list
`{"en", "hi"}`, and a detector exception (modelled as `none`) is
swallowed, leaving `"unknown"`. -/
def ingestLanguage (langDetect : String → Option String) (text : String) : String :=
  if text ≠ "" ∧ 30 < text.length then
    match langDetect text with
    | some lang => if lang = "en" ∨ lang = "hi" then lang else "unknown"
    | none => "unknown"
  else "unknown"

/-- The chunk list of `process_pdf_bytes`: `chunk_text(text)` at the
default parameters `target_words=400, overlap=0.2`.  At these defaults the
stride is `320 > 0`, so the loop always terminates and the `getD` default
is never taken. -/
def ingestChunks (text : String) : List String :=
  (chunk_text text 400 (1/5)).getD []

/-- Function `process_pdf_bytes(pdf_bytes, source)` of `ingest_service.py`.
Opaque collaborators are parameters: `sha` is `hashlib.sha256(...)
.hexdigest()`, `pdfRead` backs `extract_text_and_meta`, `langDetect` is
`langdetect.detect` (with `none` for a detector exception), and `fname` is
the fresh `f"{int(time.time())}_{uuid4().hex[:8]}.pdf"` name this call
would allocate. -/
def process_pdf_bytes (sha : List ℕ → String) (pdfRead : PdfRead)
    (langDetect : String → Option String) (fname : String)
    (st : IngestState) (pdf_bytes : List ℕ) (source : Option String) :
    IngestResult × IngestState :=
  if MAX_PDF_SIZE_MB * 1024 * 1024 < pdf_bytes.length then
    (.tooLarge 413 "PDF file too large", st)
  else
    let checksum := sha pdf_bytes
    match st.ledger.lookup checksum with
    | some existing => (.duplicate existing checksum, st)
    | none =>
      let blobs1 := fsWrite st.blobs fname pdf_bytes
      let tm := extract_text_and_meta pdfRead pdf_bytes
      let text := tm.1
      let needs_ocr := decide (text = "" ∨ text.length < 100)
      let chunks := ingestChunks text
      let chunk_ids := (List.range chunks.length).map (chunkFileName fname)
      let chunkFiles1 := chunks.enum.foldl
        (fun fs ic => fsWrite fs (chunkFileName fname ic.1) (pySlice ic.2 2000))
        st.chunkFiles
      let ledger1 := st.ledger ++ [(checksum, fname)]
      (.ingested {
          pdf_filename := fname
          pdf_path := "data/pdfs/" ++ fname
          sha256 := checksum
          source := source.getD ""
          language := ingestLanguage langDetect text
          needs_ocr := needs_ocr
          next_step := if needs_ocr then "ocr_required" else "ready_for_embedding"
          num_chunks := chunks.length
          chunk_ids := chunk_ids
          meta := tm.2 },
        { ledger := ledger1, blobs := blobs1, chunkFiles := chunkFiles1 })

/-! ### rag_pipeline.py -/

/-- Outcome of one pass through `ask_question` of `rag_pipeline.py` for a
single read question: the empty-collection early return, the `"exit"`
break, the empty-retrieval `continue`, or a generated answer. -/
inductive AskOutcome where
  | noData
  | exitLoop
  | noContext
  | answered (answer : String)
deriving DecidableEq

/-- The prompt f-string assembled by `ask_question`. -/
def buildPrompt (context question : String) : String :=
  "\nYou are a research assistant helping understand Indian Parliament sessions.\n\nUsing ONLY the context below:\n- Identify key issues discussed\n- Mention dates if present\n- Summarize clearly in bullet points\n- If date is missing, say \"date not specified\"\n\nContext:\n"
    ++ context ++ "\n\nQuestion:\n" ++ question ++ "\n\nAnswer:\n"

/-- Function `ask_question` of `rag_pipeline.py`, for one question `raw`
read from the user.  Opaque collaborators are parameters: `count` is
`collection.count()`, `embed` is the sentence-transformer encoding,
`queryIndex v k` returns `results["documents"][0]` of
`collection.query(query_embeddings=[v], n_results=k)`, and `generate` is
the Gemini call.  The code checks the collection count once, strips the
question, breaks on `"exit"`, skips generation when retrieval is empty,
and otherwise generates from the assembled prompt. -/
def ask_question {V : Type} (count : ℕ) (embed : String → V)
    (queryIndex : V → ℕ → List String) (generate : String → String)
    (raw : String) : AskOutcome :=
  if count = 0 then .noData
  else
    let question := pyStrip raw
    if pyLower question = "exit" then .exitLoop
    else
      let retrieved := queryIndex (embed question) 5
      if retrieved = [] then .noContext
      else
        .answered (generate (buildPrompt (String.intercalate "\n\n" retrieved) question))

/-- Chunk ids assigned by `ingest_pdfs` of `rag_pipeline.py`:
`f"{pdf}_{idx}"` for each enumerated chunk. -/
def ragChunkIds (pdf : String) (numChunks : ℕ) : List String :=
  (List.range numChunks).map (fun idx => pdf ++ "_" ++ natStr idx)

/-! ### Evaluation of the stride at the parameter values the claims use -/

theorem pyTrunc_natCast (n : ℕ) : pyTrunc (n : ℚ) = n := by
  simp [pyTrunc, Rat.num_natCast, Rat.den_natCast]

theorem strideOf_400 : strideOf 400 (1/5) = 320 := by
  have hp : pyTrunc (((400 : ℕ) : ℚ) * (1 - 1/5)) = 320 := by
    have h : ((400 : ℕ) : ℚ) * (1 - 1/5) = ((320 : ℕ) : ℚ) := by norm_num
    rw [h, pyTrunc_natCast]
    norm_num
  unfold strideOf
  rw [hp]
  norm_num

theorem strideOf_3_half : strideOf 3 (1/2) = 1 := by
  have hp : pyTrunc (((3 : ℕ) : ℚ) * (1 - 1/2)) = 1 := by
    have h : ((3 : ℕ) : ℚ) * (1 - 1/2) = 3/2 := by norm_num
    rw [h]
    norm_num [pyTrunc]
    decide
  unfold strideOf
  rw [hp]
  norm_num

theorem strideOf_10_099 : strideOf 10 (99/100) = 10 := by
  have hp : pyTrunc (((10 : ℕ) : ℚ) * (1 - 99/100)) = 0 := by
    have h : ((10 : ℕ) : ℚ) * (1 - 99/100) = 1/10 := by norm_num
    rw [h]
    norm_num [pyTrunc]
    decide
  unfold strideOf
  rw [hp]
  norm_num

theorem strideOfSpec_3_half : strideOfSpec 3 (1/2) = 2 := by
  have hp : round (((3 : ℕ) : ℚ) * (1 - 1/2)) = 2 := by
    have h : ((3 : ℕ) : ℚ) * (1 - 1/2) = 3/2 := by norm_num
    rw [h]
    norm_num [round_eq]
  unfold strideOfSpec
  rw [hp]
  norm_num

/-! ### Characterization of the chunk loop: windows at offsets 0, stride,
2 * stride, ... until the offset reaches the word count -/

theorem chunkFromFuel_eq (words : List String) (target step : ℕ) (hs : 0 < step) :
    ∀ fuel i, words.length - i < fuel →
    chunkFromFuel words target step fuel i =
      (List.range ((words.length - i + step - 1) / step)).map
        (fun k => String.intercalate " " ((words.drop (i + step * k)).take target)) := by
  intro fuel
  induction fuel with
  | zero => intro i h; omega
  | succ fuel ih =>
    intro i h
    rw [chunkFromFuel]
    by_cases hlt : i < words.length
    · rw [if_pos hlt, ih (i + step) (by omega)]
      have hcount : (words.length - i + step - 1) / step
          = (words.length - (i + step) + step - 1) / step + 1 := by
        rcases le_or_lt step (words.length - i) with hc | hc
        · have h1 : words.length - (i + step) + step - 1 = words.length - i - 1 := by omega
          have h2 : words.length - i + step - 1 = (words.length - i - 1) + step := by omega
          rw [h1, h2, Nat.add_div_right _ hs]
        · have h1 : words.length - (i + step) = 0 := by omega
          have h2 : words.length - i + step - 1 = (words.length - i - 1) + step := by omega
          rw [h1, h2, Nat.add_div_right _ hs]
          rw [Nat.div_eq_of_lt (by omega), Nat.div_eq_of_lt (by omega)]
      rw [hcount, List.range_succ_eq_map, List.map_cons, List.map_map]
      have htail : ∀ a ∈ List.range ((words.length - (i + step) + step - 1) / step),
          String.intercalate " " ((words.drop (i + step + step * a)).take target)
            = String.intercalate " " ((words.drop (i + step * Nat.succ a)).take target) := by
        intro a _
        have e : i + step + step * a = i + step * Nat.succ a := by
          simp only [Nat.succ_eq_add_one]
          ring
        rw [e]
      rw [List.map_congr_left htail]
      simp [Function.comp]
    · rw [if_neg hlt]
      have h0 : words.length - i = 0 := by omega
      rw [h0, Nat.zero_add, Nat.div_eq_of_lt (by omega)]
      simp

theorem chunkWords_eq (words : List String) (target : ℕ) (stepZ : ℤ) (hs : 0 < stepZ) :
    chunkWords words target stepZ =
      some ((List.range ((words.length + stepZ.toNat - 1) / stepZ.toNat)).map
        (fun k => String.intercalate " " ((words.drop (stepZ.toNat * k)).take target))) := by
  rw [chunkWords, if_pos hs]
  congr 1
  rw [chunkFromFuel_eq words target stepZ.toNat (by omega) (words.length + 1) 0 (by omega)]
  simp

theorem chunk_text_eq (text : String) (target : ℕ) (overlap : ℚ)
    (hs : 0 < strideOf target overlap) :
    chunk_text text target overlap =
      some ((List.range
          (((pySplit text).length + (strideOf target overlap).toNat - 1)
            / (strideOf target overlap).toNat)).map
        (fun k => String.intercalate " "
          (((pySplit text).drop ((strideOf target overlap).toNat * k)).take target))) := by
  have hposn : 0 < (strideOf target overlap).toNat := by omega
  by_cases h : text = ""
  · subst h
    rw [chunk_text, if_pos rfl]
    have hsplit : pySplit "" = [] := rfl
    rw [hsplit]
    simp only [List.length_nil, Nat.zero_add]
    rw [Nat.div_eq_of_lt (by omega)]
    simp
  · rw [chunk_text, if_neg h, chunkWords_eq _ _ _ hs]

theorem chunk_text_default (text : String) :
    chunk_text text 400 (1/5) =
      some ((List.range (((pySplit text).length + 320 - 1) / 320)).map
        (fun k => String.intercalate " " (((pySplit text).drop (320 * k)).take 400))) := by
  have h := chunk_text_eq text 400 (1/5) (by rw [strideOf_400]; norm_num)
  rw [strideOf_400] at h
  simpa using h

theorem ingestChunks_eq (text : String) :
    ingestChunks text =
      (List.range (((pySplit text).length + 320 - 1) / 320)).map
        (fun k => String.intercalate " " (((pySplit text).drop (320 * k)).take 400)) := by
  rw [ingestChunks, chunk_text_default]
  rfl

theorem ingestChunks_empty : ingestChunks "" = [] := rfl

/-! ### Unfolding process_pdf_bytes on its three branches -/

theorem process_oversize (sha : List ℕ → String) (pdfRead : PdfRead)
    (langDetect : String → Option String) (fname : String)
    (st : IngestState) (b : List ℕ) (src : Option String)
    (hsz : MAX_PDF_SIZE_MB * 1024 * 1024 < b.length) :
    process_pdf_bytes sha pdfRead langDetect fname st b src =
      (.tooLarge 413 "PDF file too large", st) := by
  unfold process_pdf_bytes
  rw [if_pos hsz]

theorem process_dup (sha : List ℕ → String) (pdfRead : PdfRead)
    (langDetect : String → Option String) (fname : String)
    (st : IngestState) (b : List ℕ) (src : Option String) (ex : String)
    (hsz : b.length ≤ MAX_PDF_SIZE_MB * 1024 * 1024)
    (hdup : st.ledger.lookup (sha b) = some ex) :
    process_pdf_bytes sha pdfRead langDetect fname st b src =
      (.duplicate ex (sha b), st) := by
  simp only [process_pdf_bytes]
  rw [if_neg (by omega), hdup]

theorem process_fresh (sha : List ℕ → String) (pdfRead : PdfRead)
    (langDetect : String → Option String) (fname : String)
    (st : IngestState) (b : List ℕ) (src : Option String)
    (hsz : b.length ≤ MAX_PDF_SIZE_MB * 1024 * 1024)
    (hfresh : st.ledger.lookup (sha b) = none) :
    process_pdf_bytes sha pdfRead langDetect fname st b src =
      (.ingested {
          pdf_filename := fname
          pdf_path := "data/pdfs/" ++ fname
          sha256 := sha b
          source := src.getD ""
          language := ingestLanguage langDetect (extract_text_and_meta pdfRead b).1
          needs_ocr := decide ((extract_text_and_meta pdfRead b).1 = ""
            ∨ (extract_text_and_meta pdfRead b).1.length < 100)
          next_step := if decide ((extract_text_and_meta pdfRead b).1 = ""
              ∨ (extract_text_and_meta pdfRead b).1.length < 100) = true
            then "ocr_required" else "ready_for_embedding"
          num_chunks := (ingestChunks (extract_text_and_meta pdfRead b).1).length
          chunk_ids := (List.range (ingestChunks (extract_text_and_meta pdfRead b).1).length).map
            (chunkFileName fname)
          meta := (extract_text_and_meta pdfRead b).2 },
        { ledger := st.ledger ++ [(sha b, fname)]
          blobs := fsWrite st.blobs fname b
          chunkFiles := (ingestChunks (extract_text_and_meta pdfRead b).1).enum.foldl
            (fun fs ic => fsWrite fs (chunkFileName fname ic.1) (pySlice ic.2 2000))
            st.chunkFiles }) := by
  simp only [process_pdf_bytes]
  rw [if_neg (by omega), hfresh]

/-! ### Ledger lookup lemmas -/

theorem lookup_append {β : Type} (l₁ l₂ : List (String × β)) (k : String) :
    (l₁ ++ l₂).lookup k = ((l₁.lookup k).or (l₂.lookup k)) := by
  induction l₁ with
  | nil => simp [List.lookup]
  | cons p l ih =>
    obtain ⟨k1, v⟩ := p
    by_cases h : k = k1
    · subst h
      simp [List.lookup]
    · have hb : (k == k1) = false := by
        simp [h]
      simp [List.lookup, hb, ih]

theorem lookup_singleton {β : Type} (k : String) (v : β) :
    List.lookup k [(k, v)] = some v := by
  simp [List.lookup]

/-! ### Injectivity of the decimal rendering -/

theorem natStrAux_ne_nil (fuel n : ℕ) (hf : n < fuel) : natStrAux fuel n ≠ [] := by
  cases fuel with
  | zero => omega
  | succ fuel =>
    rw [natStrAux]
    by_cases h10 : n < 10
    · simp [h10]
    · simp only [h10, if_false]
      intro hc
      exact absurd (List.append_eq_nil.mp hc).2 (by simp)

theorem natStrAux_fuel : ∀ n f g, n < f → n < g → natStrAux f n = natStrAux g n := by
  intro n
  induction n using Nat.strong_induction_on with
  | _ n ih =>
    intro f g hf hg
    cases f with
    | zero => omega
    | succ f =>
      cases g with
      | zero => omega
      | succ g =>
        simp only [natStrAux]
        by_cases h10 : n < 10
        · simp [h10]
        · simp only [h10, if_false]
          have hd : n / 10 < n := Nat.div_lt_self (by omega) (by omega)
          rw [ih (n / 10) hd f g (by omega) (by omega)]

theorem digit_char_inj : ∀ a < 10, ∀ b < 10,
    Char.ofNat (48 + a) = Char.ofNat (48 + b) → a = b := by decide

theorem natStr_inj : ∀ a b : ℕ, natStr a = natStr b → a = b := by
  intro a
  induction a using Nat.strong_induction_on with
  | _ a ih =>
    intro b h
    have hl : natStrAux (a + 1) a = natStrAux (b + 1) b := congrArg String.data h
    simp only [natStrAux] at hl
    by_cases ha : a < 10 <;> by_cases hb : b < 10
    · simp only [ha, hb, if_true] at hl
      exact digit_char_inj a ha b hb (List.cons.inj hl).1
    · exfalso
      simp only [ha, hb, if_true, if_false] at hl
      have hlen := congrArg List.length hl
      simp at hlen
      have hnil : natStrAux b (b / 10) = [] := by
        cases hx : natStrAux b (b / 10) with
        | nil => rfl
        | cons c cs =>
          rw [hx] at hlen
          simp at hlen
      exact natStrAux_ne_nil b (b / 10)
        (lt_of_lt_of_le (Nat.div_lt_self (by omega) (by omega)) (le_refl b)) hnil
    · exfalso
      simp only [ha, hb, if_true, if_false] at hl
      have hlen := congrArg List.length hl
      simp at hlen
      have hnil : natStrAux a (a / 10) = [] := by
        cases hx : natStrAux a (a / 10) with
        | nil => rfl
        | cons c cs =>
          rw [hx] at hlen
          simp at hlen
      exact natStrAux_ne_nil a (a / 10)
        (lt_of_lt_of_le (Nat.div_lt_self (by omega) (by omega)) (le_refl a)) hnil
    · simp only [ha, hb, if_false] at hl
      obtain ⟨h1, h2⟩ := List.append_inj' hl (by simp)
      have hmod : a % 10 = b % 10 :=
        digit_char_inj (a % 10) (by omega) (b % 10) (by omega) (List.cons.inj h2).1
      have e1 : natStrAux a (a / 10) = natStrAux (a / 10 + 1) (a / 10) :=
        natStrAux_fuel (a / 10) a (a / 10 + 1) (Nat.div_lt_self (by omega) (by omega))
          (by omega)
      have e2 : natStrAux b (b / 10) = natStrAux (b / 10 + 1) (b / 10) :=
        natStrAux_fuel (b / 10) b (b / 10 + 1) (Nat.div_lt_self (by omega) (by omega))
          (by omega)
      have hdiv : natStr (a / 10) = natStr (b / 10) := by
        unfold natStr
        rw [← e1, ← e2, h1]
      have := ih (a / 10) (Nat.div_lt_self (by omega) (by omega)) (b / 10) hdiv
      omega

/-! ### Chunk id shape: injective, hence unique within a document -/

theorem chunkFileName_inj (fname : String) : Function.Injective (chunkFileName fname) := by
  intro i j h
  have hd := congrArg String.data h
  simp only [chunkFileName, String.data_append, List.append_assoc] at hd
  have h1 := List.append_cancel_left hd
  have h2 := List.append_cancel_left h1
  have h3 := List.append_cancel_right h2
  exact natStr_inj i j (congrArg String.mk h3)

theorem chunk_ids_nodup (fname : String) (n : ℕ) :
    ((List.range n).map (chunkFileName fname)).Nodup :=
  (List.nodup_range n).map (chunkFileName_inj fname)

theorem ragChunkIds_nodup (pdf : String) (n : ℕ) : (ragChunkIds pdf n).Nodup := by
  apply (List.nodup_range n).map
  intro i j h
  have hd := congrArg String.data h
  simp only [String.data_append, List.append_assoc] at hd
  have h1 := List.append_cancel_left hd
  have h2 := List.append_cancel_left h1
  exact natStr_inj i j (congrArg String.mk h2)

/-! ### The canonical whitespace-separated n-word text -/

/-- Tail of `sepChars`: n repetitions of a space followed by the letter a. -/
def sepTail : ℕ → List Char
  | 0 => []
  | n + 1 => ' ' :: 'a' :: sepTail n

/-- Characters of a text holding exactly n single-letter words separated by
single spaces. -/
def sepChars : ℕ → List Char
  | 0 => []
  | n + 1 => 'a' :: sepTail n

theorem pySplitAux_sepTail (n : ℕ) :
    pySplitAux (sepTail n) ['a'] = ['a'] :: List.replicate n ['a'] := by
  have hws : (' ' : Char).isWhitespace = true := by decide
  have ha : ('a' : Char).isWhitespace = false := by decide
  induction n with
  | zero => rfl
  | succ n ih =>
    rw [sepTail]
    rw [pySplitAux]
    rw [hws]
    simp only [if_true, if_false]
    rw [if_neg (by simp)]
    rw [pySplitAux]
    rw [ha]
    simp only [if_false]
    rw [ih]
    simp [List.replicate_succ]

theorem pySplit_sepChars (n : ℕ) :
    pySplit (String.mk (sepChars n)) = List.replicate n "a" := by
  cases n with
  | zero => rfl
  | succ n =>
    have ha : ('a' : Char).isWhitespace = false := by decide
    unfold pySplit
    rw [show (String.mk (sepChars (n + 1))).data = 'a' :: sepTail n from rfl]
    rw [pySplitAux]
    rw [ha]
    simp only [if_false]
    rw [pySplitAux_sepTail]
    simp [List.replicate_succ, List.map_replicate]

/-- A concrete text of exactly 1300 whitespace-delimited words. -/
def text1300 : String := String.mk (sepChars 1300)

theorem pySplit_text1300 : pySplit text1300 = List.replicate 1300 "a" :=
  pySplit_sepChars 1300

theorem length_pySplit_text1300 : (pySplit text1300).length = 1300 := by
  rw [pySplit_text1300, List.length_replicate]

theorem lookup_after_ingest (st : IngestState) (k v : String)
    (hfresh : st.ledger.lookup k = none) : (st.ledger ++ [(k, v)]).lookup k = some v := by
  rw [lookup_append, hfresh, lookup_singleton]
  rfl

theorem lookup_mono {β : Type} (l : List (String × β)) (e : String × β) (k : String) (v : β)
    (hkv : List.lookup k l = some v) : List.lookup k (l ++ [e]) = some v := by
  rw [lookup_append, hkv]
  rfl

/-! ## Claims -/

/-- Claim C8: an input byte sequence longer than the configured 25 MB
maximum is rejected with the PayloadTooLarge (HTTP 413) error, leaving all
persisted state unchanged; the result does not depend on the hash,
extraction, detection or naming collaborators, so the rejection happens
before any hashing, blob write or ledger write. -/
theorem oversize_rejected_before_side_effects (sha : List ℕ → String) (pdfRead : PdfRead)
    (langDetect : String → Option String) (fname : String)
    (st : IngestState) (b : List ℕ) (src : Option String)
    (hsz : MAX_PDF_SIZE_MB * 1024 * 1024 < b.length) :
    process_pdf_bytes sha pdfRead langDetect fname st b src
        = (.tooLarge 413 "PDF file too large", st)
    ∧ ∀ sha2 pdfRead2 langDetect2 fname2 src2,
        process_pdf_bytes sha2 pdfRead2 langDetect2 fname2 st b src2
          = process_pdf_bytes sha pdfRead langDetect fname st b src := by
  constructor
  · exact process_oversize sha pdfRead langDetect fname st b src hsz
  · intro sha2 pdfRead2 langDetect2 fname2 src2
    rw [process_oversize sha pdfRead langDetect fname st b src hsz,
      process_oversize sha2 pdfRead2 langDetect2 fname2 st b src2 hsz]

theorem replicate_exceeds_limit :
    MAX_PDF_SIZE_MB * 1024 * 1024 < (List.replicate (25 * 1024 * 1024 + 1) (0 : ℕ)).length := by
  rw [List.length_replicate]
  norm_num [MAX_PDF_SIZE_MB]

theorem oversize_rejected_before_side_effects_witness :
    process_pdf_bytes (fun _ => "h") (fun _ => Except.ok ([], [])) (fun _ => none) "f.pdf"
        ⟨[], [], []⟩ (List.replicate (25 * 1024 * 1024 + 1) 0) none
      = (.tooLarge 413 "PDF file too large", ⟨[], [], []⟩) :=
  (oversize_rejected_before_side_effects (fun _ => "h") (fun _ => Except.ok ([], []))
    (fun _ => none) "f.pdf" ⟨[], [], []⟩ (List.replicate (25 * 1024 * 1024 + 1) 0) none
    replicate_exceeds_limit).1

/-- Claim C1: ingestion is idempotent by content hash: on bytes within the
size limit whose hash is not yet in the ledger, the first call returns
status ingested with the fresh storage id, and a second call on
byte-identical input returns status duplicate carrying that same storage
id, leaves the whole persisted state unchanged, and its outcome does not
depend on the extraction, detection or naming collaborators or on the
source label, so no blob write, ledger write, re-extraction or
re-chunking happens. -/
theorem ingest_idempotent_by_hash (sha : List ℕ → String) (pdfRead : PdfRead)
    (langDetect : String → Option String) (fname : String)
    (st : IngestState) (b : List ℕ) (src : Option String)
    (hsz : b.length ≤ MAX_PDF_SIZE_MB * 1024 * 1024)
    (hfresh : st.ledger.lookup (sha b) = none) :
    ∃ s st1, process_pdf_bytes sha pdfRead langDetect fname st b src = (.ingested s, st1)
      ∧ s.pdf_filename = fname
      ∧ ∀ pdfRead2 langDetect2 fname2 src2,
          process_pdf_bytes sha pdfRead2 langDetect2 fname2 st1 b src2
            = (.duplicate fname (sha b), st1) := by
  refine ⟨_, _, process_fresh sha pdfRead langDetect fname st b src hsz hfresh, rfl, ?_⟩
  intro pdfRead2 langDetect2 fname2 src2
  exact process_dup sha pdfRead2 langDetect2 fname2 _ b src2 fname hsz
    (lookup_after_ingest st (sha b) fname hfresh)

theorem ingest_idempotent_by_hash_witness :
    ∃ s st1, process_pdf_bytes (fun _ => "h") (fun _ => Except.ok (["hello"], []))
        (fun _ => none) "f.pdf" ⟨[], [], []⟩ [1, 2, 3] (some "lok-sabha")
        = (.ingested s, st1)
      ∧ s.pdf_filename = "f.pdf"
      ∧ ∀ pdfRead2 langDetect2 fname2 src2,
          process_pdf_bytes (fun _ => "h") pdfRead2 langDetect2 fname2 st1 [1, 2, 3] src2
            = (.duplicate "f.pdf" "h", st1) :=
  ingest_idempotent_by_hash (fun _ => "h") (fun _ => Except.ok (["hello"], []))
    (fun _ => none) "f.pdf" ⟨[], [], []⟩ [1, 2, 3] (some "lok-sabha") (by decide) rfl

/-- Claim C10: the dedup ledger changes only by adding the single new
mapping from the content hash to the fresh storage id on a non-duplicate
ingestion, every prior entry surviving with its value, and a duplicate
ingestion leaves the whole state, hence the ledger, unchanged. -/
theorem ledger_frame_condition (sha : List ℕ → String) (pdfRead : PdfRead)
    (langDetect : String → Option String) (fname : String)
    (st : IngestState) (b : List ℕ) (src : Option String)
    (hsz : b.length ≤ MAX_PDF_SIZE_MB * 1024 * 1024) :
    (∀ ex, st.ledger.lookup (sha b) = some ex →
      (process_pdf_bytes sha pdfRead langDetect fname st b src).2 = st)
    ∧ (st.ledger.lookup (sha b) = none →
        ∃ s st1, process_pdf_bytes sha pdfRead langDetect fname st b src = (.ingested s, st1)
          ∧ st1.ledger = st.ledger ++ [(sha b, fname)]
          ∧ ∀ k v, st.ledger.lookup k = some v → st1.ledger.lookup k = some v) := by
  constructor
  · intro ex hdup
    rw [process_dup sha pdfRead langDetect fname st b src ex hsz hdup]
  · intro hfresh
    refine ⟨_, _, process_fresh sha pdfRead langDetect fname st b src hsz hfresh, rfl, ?_⟩
    intro k v hkv
    exact lookup_mono st.ledger (sha b, fname) k v hkv

theorem ledger_frame_condition_witness :
    (∀ ex, (IngestState.mk [("g", "old.pdf")] [] []).ledger.lookup "g" = some ex →
      (process_pdf_bytes (fun _ => "g") (fun _ => Except.ok ([], [])) (fun _ => none)
        "f.pdf" ⟨[("g", "old.pdf")], [], []⟩ [7] none).2 = ⟨[("g", "old.pdf")], [], []⟩)
    ∧ ((IngestState.mk [("g", "old.pdf")] [] []).ledger.lookup "g" = none →
        ∃ s st1, process_pdf_bytes (fun _ => "g") (fun _ => Except.ok ([], []))
            (fun _ => none) "f.pdf" ⟨[("g", "old.pdf")], [], []⟩ [7] none
            = (.ingested s, st1)
          ∧ st1.ledger = [("g", "old.pdf")] ++ [("g", "f.pdf")]
          ∧ ∀ k v, (IngestState.mk [("g", "old.pdf")] [] []).ledger.lookup k = some v →
              st1.ledger.lookup k = some v) :=
  ledger_frame_condition (fun _ => "g") (fun _ => Except.ok ([], [])) (fun _ => none)
    "f.pdf" ⟨[("g", "old.pdf")], [], []⟩ [7] none (by decide)

/-- Claim C9: a failing extraction returns empty text instead of
propagating the failure, and an ingestion whose extracted text is empty
still succeeds, with zero chunks, an empty chunk id list, needs_ocr true
and next_step ocr_required. -/
theorem extraction_failure_flags_ocr :
    (∀ (pdfRead : PdfRead) (b : List ℕ) (m : PdfMeta),
        pdfRead b = .error m → (extract_text_and_meta pdfRead b).1 = "")
    ∧ ∀ (sha : List ℕ → String) (pdfRead : PdfRead) (langDetect : String → Option String)
        (fname : String) (st : IngestState) (b : List ℕ) (src : Option String),
        b.length ≤ MAX_PDF_SIZE_MB * 1024 * 1024 →
        st.ledger.lookup (sha b) = none →
        (extract_text_and_meta pdfRead b).1 = "" →
        ∃ s st1, process_pdf_bytes sha pdfRead langDetect fname st b src = (.ingested s, st1)
          ∧ s.num_chunks = 0 ∧ s.chunk_ids = [] ∧ s.needs_ocr = true
          ∧ s.next_step = "ocr_required" := by
  constructor
  · intro pdfRead b m hm
    unfold extract_text_and_meta
    rw [hm]
  · intro sha pdfRead langDetect fname st b src hsz hfresh htext
    refine ⟨_, _, process_fresh sha pdfRead langDetect fname st b src hsz hfresh,
      ?_, ?_, ?_, ?_⟩
    · simp [htext, ingestChunks_empty]
    · simp [htext, ingestChunks_empty]
    · simp [htext]
    · simp [htext]

theorem extraction_failure_flags_ocr_witness :
    (extract_text_and_meta (fun _ => Except.error [("k", "v")]) [9]).1 = ""
    ∧ ∃ s st1, process_pdf_bytes (fun _ => "h") (fun _ => Except.error [("k", "v")])
          (fun _ => none) "f.pdf" ⟨[], [], []⟩ [9] none = (.ingested s, st1)
        ∧ s.num_chunks = 0 ∧ s.chunk_ids = [] ∧ s.needs_ocr = true
        ∧ s.next_step = "ocr_required" :=
  ⟨extraction_failure_flags_ocr.1 (fun _ => Except.error [("k", "v")]) [9] [("k", "v")] rfl,
    extraction_failure_flags_ocr.2 (fun _ => "h") (fun _ => Except.error [("k", "v")])
      (fun _ => none) "f.pdf" ⟨[], [], []⟩ [9] none (by decide) rfl rfl⟩

/-- Claim C4: when zero chunks are retrieved, either because the
collection is empty or because the query returns an empty document list,
the query path returns the deterministic no-data or no-context outcome,
and the outcome does not depend on the generation collaborator, so the
generation model is never invoked. -/
theorem no_context_skips_generation (V : Type) (count : ℕ) (embed : String → V)
    (queryIndex : V → ℕ → List String) (generate : String → String) (raw : String) :
    (count = 0 → ask_question count embed queryIndex generate raw = .noData)
    ∧ (count ≠ 0 → pyLower (pyStrip raw) ≠ "exit" →
        queryIndex (embed (pyStrip raw)) 5 = [] →
        ask_question count embed queryIndex generate raw = .noContext)
    ∧ ((count = 0 ∨ queryIndex (embed (pyStrip raw)) 5 = []) →
        ∀ generate2, ask_question count embed queryIndex generate raw
          = ask_question count embed queryIndex generate2 raw) := by
  refine ⟨?_, ?_, ?_⟩
  · intro h
    simp [ask_question, h]
  · intro h0 hex hq
    simp [ask_question, h0, hex, hq]
  · intro hor generate2
    rcases hor with h | h
    · simp [ask_question, h]
    · by_cases h0 : count = 0
      · simp [ask_question, h0]
      · by_cases hex : pyLower (pyStrip raw) = "exit"
        · simp [ask_question, h0, hex]
        · simp [ask_question, h0, hex, h]

theorem no_context_skips_generation_witness :
    (ask_question 0 (fun _ => (0 : ℕ)) (fun _ _ => []) (fun _ => "ans") "q" = .noData)
    ∧ (ask_question 1 (fun _ => (0 : ℕ)) (fun _ _ => []) (fun _ => "ans") "q" = .noContext) :=
  ⟨(no_context_skips_generation ℕ 0 (fun _ => 0) (fun _ _ => []) (fun _ => "ans") "q").1 rfl,
    (no_context_skips_generation ℕ 1 (fun _ => 0) (fun _ _ => []) (fun _ => "ans") "q").2.1
      (by decide) (by decide) rfl⟩

/-- Claim C5 counterexample: an empty question is not rejected with a
validation error: with a nonempty collection the empty question reaches
retrieval and generation, and the outcome depends on the generation
collaborator, so a generation call does occur. -/
theorem empty_question_not_rejected :
    ask_question 1 (fun _ => (0 : ℕ)) (fun _ _ => ["ctx"]) (fun _ => "A") "" = .answered "A"
    ∧ ask_question 1 (fun _ => (0 : ℕ)) (fun _ _ => ["ctx"]) (fun _ => "B") "" = .answered "B"
    ∧ AskOutcome.answered "A" ≠ AskOutcome.answered "B" :=
  ⟨by decide, by decide, by decide⟩

/-- Claim C5 corrected: the query loop performs no empty-question
validation: an empty or whitespace-only question, which is not the exit
command, is stripped to the empty string and then embedded, used to query
the vector index, and, when retrieval is nonempty, passed to generation
like any other question. -/
theorem empty_question_processed_normally (V : Type) (count : ℕ) (embed : String → V)
    (queryIndex : V → ℕ → List String) (generate : String → String) (raw : String)
    (hempty : pyStrip raw = "") (h0 : count ≠ 0) :
    ask_question count embed queryIndex generate raw
      = (if queryIndex (embed "") 5 = [] then .noContext
         else .answered (generate
           (buildPrompt (String.intercalate "\n\n" (queryIndex (embed "") 5)) ""))) := by
  simp only [ask_question]
  rw [if_neg h0, hempty]
  rw [if_neg (show ¬(pyLower "" = "exit") by decide)]

theorem empty_question_processed_normally_witness :
    ask_question 1 (fun _ => (0 : ℕ)) (fun _ _ => ["ctx"]) (fun _ => "ans") "  "
      = (if (fun (_ : ℕ) (_ : ℕ) => ["ctx"]) ((fun _ => (0 : ℕ)) "") 5 = [] then .noContext
         else .answered ((fun _ => "ans")
           (buildPrompt (String.intercalate "\n\n"
             ((fun (_ : ℕ) (_ : ℕ) => ["ctx"]) ((fun _ => (0 : ℕ)) "") 5)) ""))) :=
  empty_question_processed_normally ℕ 1 (fun _ => 0) (fun _ _ => ["ctx"]) (fun _ => "ans")
    "  " (by decide) (by decide)

/-- Claim C2 counterexample: on a text of exactly 1300 whitespace-delimited
words, chunking at target 400 and overlap 0.2 produces 5 chunks, not 4:
the loop also emits the window at offset 1280 = 4 * 320, because
1280 < 1300. -/
theorem chunk_1300_words_not_four :
    Option.map List.length (chunk_text text1300 400 (1/5)) = some 5 ∧ (5 : ℕ) ≠ 4 := by
  constructor
  · rw [chunk_text_default text1300]
    simp [length_pySplit_text1300]
  · decide

/-- Claim C2 corrected: for a text of exactly 1300 whitespace-delimited
words, chunking at target 400 and overlap 0.2 produces exactly 5 chunks,
whose windows start at word offsets 0, 320, 640, 960 and 1280, with the
4th window holding 340 words and the 5th window 20 words, both shorter
than 400. -/
theorem chunk_1300_words_five_windows (text : String)
    (h : (pySplit text).length = 1300) :
    chunk_text text 400 (1/5) = some
      [String.intercalate " " (((pySplit text).drop 0).take 400),
       String.intercalate " " (((pySplit text).drop 320).take 400),
       String.intercalate " " (((pySplit text).drop 640).take 400),
       String.intercalate " " (((pySplit text).drop 960).take 400),
       String.intercalate " " (((pySplit text).drop 1280).take 400)]
    ∧ (((pySplit text).drop 960).take 400).length = 340
    ∧ (((pySplit text).drop 1280).take 400).length = 20 := by
  refine ⟨?_, ?_, ?_⟩
  · rw [chunk_text_default text, h]
    rfl
  · rw [List.length_take, List.length_drop, h]
    omega
  · rw [List.length_take, List.length_drop, h]
    omega

theorem chunk_1300_words_five_windows_witness :
    (pySplit text1300).length = 1300
    ∧ (chunk_text text1300 400 (1/5) = some
        [String.intercalate " " (((pySplit text1300).drop 0).take 400),
         String.intercalate " " (((pySplit text1300).drop 320).take 400),
         String.intercalate " " (((pySplit text1300).drop 640).take 400),
         String.intercalate " " (((pySplit text1300).drop 960).take 400),
         String.intercalate " " (((pySplit text1300).drop 1280).take 400)]
      ∧ (((pySplit text1300).drop 960).take 400).length = 340
      ∧ (((pySplit text1300).drop 1280).take 400).length = 20) :=
  ⟨length_pySplit_text1300,
    chunk_1300_words_five_windows text1300 length_pySplit_text1300⟩

/-- Claim C3 counterexample: at target 3 and overlap 0.5 the code strides
by int(1.5) = 1 and yields four windows, while the rounded stride
round(1.5) = 2 of the claim yields two windows, so the stride is not
round(target * (1 - overlap)). -/
theorem stride_not_round_counterexample :
    chunk_text "a b c d" 3 (1/2) = some ["a b c", "b c d", "c d", "d"]
    ∧ chunk_text_spec "a b c d" 3 (1/2) = some ["a b c", "c d"]
    ∧ chunk_text "a b c d" 3 (1/2) ≠ chunk_text_spec "a b c d" 3 (1/2) := by
  have h1 : chunk_text "a b c d" 3 (1/2) = some ["a b c", "b c d", "c d", "d"] := by
    unfold chunk_text
    rw [if_neg (by decide), strideOf_3_half]
    decide
  have h2 : chunk_text_spec "a b c d" 3 (1/2) = some ["a b c", "c d"] := by
    unfold chunk_text_spec
    rw [if_neg (by decide), strideOfSpec_3_half]
    decide
  refine ⟨h1, h2, ?_⟩
  rw [h1, h2]
  decide

/-- Helper fact used to discharge the stride-positivity hypothesis at the
parameters of the C3 witness. -/
theorem strideOf_3_half_pos : 0 < strideOf 3 (1/2) := by
  rw [strideOf_3_half]
  norm_num

/-- Claim C3 corrected: the stride is the Python int truncation of
target_size * (1 - overlap_fraction), except that when this truncation is
0 the stride is target_size instead; whenever the resulting stride is
positive, windows of target_size words start at offsets 0, stride,
2 * stride, and so on, until the offset reaches the token count. -/
theorem chunk_stride_truncation (text : String) (target : ℕ) (overlap : ℚ)
    (hpos : 0 < strideOf target overlap) :
    strideOf target overlap
      = (if pyTrunc ((target : ℚ) * (1 - overlap)) = 0 then (target : ℤ)
         else pyTrunc ((target : ℚ) * (1 - overlap)))
    ∧ chunk_text text target overlap = some
        ((List.range
            (((pySplit text).length + (strideOf target overlap).toNat - 1)
              / (strideOf target overlap).toNat)).map
          (fun k => String.intercalate " "
            (((pySplit text).drop ((strideOf target overlap).toNat * k)).take target))) :=
  ⟨rfl, chunk_text_eq text target overlap hpos⟩

theorem chunk_stride_truncation_witness :
    0 < strideOf 3 (1/2)
    ∧ (strideOf 3 (1/2)
        = (if pyTrunc ((3 : ℚ) * (1 - 1/2)) = 0 then (3 : ℤ)
           else pyTrunc ((3 : ℚ) * (1 - 1/2)))
      ∧ chunk_text "a b c d" 3 (1/2) = some
          ((List.range
              (((pySplit "a b c d").length + (strideOf 3 (1/2)).toNat - 1)
                / (strideOf 3 (1/2)).toNat)).map
            (fun k => String.intercalate " "
              (((pySplit "a b c d").drop ((strideOf 3 (1/2)).toNat * k)).take 3)))) :=
  ⟨strideOf_3_half_pos, chunk_stride_truncation "a b c d" 3 (1/2) strideOf_3_half_pos⟩

/-- Claim C7: the chunker terminates on every input: empty text yields the
empty chunk sequence at any parameters, and at target 10 and overlap 0.99
the zero fallback makes the stride 10, every text yields a finite chunk
sequence, and every word index lies inside the window of some emitted
chunk. -/
theorem chunker_total_and_covering :
    (∀ (target : ℕ) (overlap : ℚ), chunk_text "" target overlap = some [])
    ∧ ∀ text : String, ∃ cs, chunk_text text 10 (99/100) = some cs
        ∧ ∀ j, j < (pySplit text).length →
            ∃ k, k < cs.length ∧ 10 * k ≤ j ∧ j < 10 * k + 10 := by
  constructor
  · intro target overlap
    rw [chunk_text, if_pos rfl]
  · intro text
    have hs : 0 < strideOf 10 (99/100) := by
      rw [strideOf_10_099]
      norm_num
    have h := chunk_text_eq text 10 (99/100) hs
    rw [strideOf_10_099] at h
    rw [show ((10 : ℤ)).toNat = 10 from rfl] at h
    refine ⟨_, h, ?_⟩
    intro j hj
    refine ⟨j / 10, ?_, ?_, ?_⟩
    · simp only [List.length_map, List.length_range]
      omega
    · omega
    · omega

theorem chunker_total_and_covering_witness :
    chunk_text "" 7 (1/3) = some []
    ∧ ∃ cs, chunk_text "a b" 10 (99/100) = some cs
        ∧ ∃ k, k < cs.length ∧ 10 * k ≤ 1 ∧ 1 < 10 * k + 10 := by
  refine ⟨chunker_total_and_covering.1 7 (1/3), ?_⟩
  obtain ⟨cs, hcs, hcov⟩ := chunker_total_and_covering.2 "a b"
  exact ⟨cs, hcs, hcov 1 (by decide)⟩

/-- Claim C6 counterexample: the chunk id of ordinal 0 carries a txt
suffix: it is storage_id.chunk0.txt, not storage_id.chunk0 as the claim
states. -/
theorem chunk_id_txt_suffix_counterexample :
    (process_pdf_bytes (fun _ => "h") (fun _ => Except.ok (["w"], [])) (fun _ => none)
        "f.pdf" ⟨[], [], []⟩ [0] none).1.chunkIds = some ["f.pdf.chunk0.txt"]
    ∧ "f.pdf.chunk0.txt" ≠ "f.pdf.chunk0" := by
  have hrun := process_fresh (fun _ => "h") (fun _ => Except.ok (["w"], []))
    (fun _ => none) "f.pdf" ⟨[], [], []⟩ [0] none (by decide) rfl
  have htext : (extract_text_and_meta (fun _ => Except.ok (["w"], [])) [0]).1 = "w" := by
    decide
  have hchunks : ingestChunks "w" = ["w"] := by
    rw [ingestChunks_eq]
    decide
  constructor
  · rw [hrun]
    simp [IngestResult.chunkIds, htext, hchunks]
    decide
  · decide

/-- Claim C6 corrected: on a non-duplicate ingestion the id of the chunk
with ordinal i is exactly storage_id.chunk{i}.txt, assigned in window
order with ordinals starting at 0; the ids are unique within the document
and depend only on the storage id and the extracted text, so a re-run
with the same storage id, input text and parameters reproduces them; the
vector-store ingester of rag_pipeline.py instead derives its ids as
filename_{i}, which are also unique per document. -/
theorem chunk_ids_deterministic_unique (sha : List ℕ → String) (pdfRead : PdfRead)
    (langDetect : String → Option String) (fname : String) (st : IngestState)
    (b : List ℕ) (src : Option String)
    (hsz : b.length ≤ MAX_PDF_SIZE_MB * 1024 * 1024)
    (hfresh : st.ledger.lookup (sha b) = none) :
    ∃ s st1, process_pdf_bytes sha pdfRead langDetect fname st b src = (.ingested s, st1)
      ∧ s.chunk_ids = (List.range s.num_chunks).map
          (fun i => fname ++ ".chunk" ++ natStr i ++ ".txt")
      ∧ s.chunk_ids.Nodup
      ∧ (∀ sha2 langDetect2 st2 src2, (st2 : IngestState).ledger.lookup (sha2 b) = none →
          ∃ s2 st3, process_pdf_bytes sha2 pdfRead langDetect2 fname st2 b src2
              = (.ingested s2, st3) ∧ s2.chunk_ids = s.chunk_ids)
      ∧ ∀ n, (ragChunkIds fname n).Nodup := by
  refine ⟨_, _, process_fresh sha pdfRead langDetect fname st b src hsz hfresh,
    rfl, chunk_ids_nodup fname _, ?_, ragChunkIds_nodup fname⟩
  intro sha2 langDetect2 st2 src2 hfresh2
  exact ⟨_, _, process_fresh sha2 pdfRead langDetect2 fname st2 b src2 hsz hfresh2, rfl⟩

theorem chunk_ids_deterministic_unique_witness :
    ∃ s st1, process_pdf_bytes (fun _ => "h") (fun _ => Except.ok (["w"], []))
        (fun _ => none) "f.pdf" ⟨[], [], []⟩ [0] none = (.ingested s, st1)
      ∧ s.chunk_ids = (List.range s.num_chunks).map
          (fun i => "f.pdf" ++ ".chunk" ++ natStr i ++ ".txt")
      ∧ s.chunk_ids.Nodup
      ∧ (∀ sha2 langDetect2 st2 src2, (st2 : IngestState).ledger.lookup (sha2 [0]) = none →
          ∃ s2 st3, process_pdf_bytes sha2 (fun _ => Except.ok (["w"], [])) langDetect2
              "f.pdf" st2 [0] src2 = (.ingested s2, st3) ∧ s2.chunk_ids = s.chunk_ids)
      ∧ ∀ n, (ragChunkIds "f.pdf" n).Nodup :=
  chunk_ids_deterministic_unique (fun _ => "h") (fun _ => Except.ok (["w"], []))
    (fun _ => none) "f.pdf" ⟨[], [], []⟩ [0] none (by decide) rfl

end Sansad
